import Mathlib

/-!
Shallow embedding of the PII de-identification module
`src/sdx/privacy/deidenitfier.py` (class `Deidentifier` together with the
free function `deidentify_patient_record`), and proofs of the specified
properties of `analyze`, `deidentify`, `add_custom_recognizer` and
`deidentify_patient_record`.

Modelling conventions:
* Python strings that are indexed and spliced are modelled as `List Char`;
  the Python slice `t[a:b]` is `py_slice t a b`.
* Confidence scores (Python `float`) are modelled as `Rat`; every score the
  development mentions (0.0, 0.85, 1.0, 1.5) is exactly representable, so
  nothing is lost to rounding.
* The Presidio engines (`AnalyzerEngine`, `AnonymizerEngine`,
  `RecognizerRegistry`, the regex engine, the built-in statistical
  recognizers) are third-party collaborators, not code of this repository.
  Where the embedded functions call into them, those calls are made explicit
  function parameters (`analyze`, `hash_anonymize`, `pattern_engine`,
  `builtin_detect`, `compile_ok`), or are modelled from the spec where noted
  in the individual doc comments.
* A Python exception is modelled with `Except`: `.error` carries the
  exception message, paired with the registry state at the point the
  exception escapes when registry state matters.
-/

namespace SdxPrivacy

/-- Presidio analyzer result (`RecognizerResult`): one detected PII span,
with its entity type, character offsets and confidence score.  The field
`stop` models the Python attribute `end` (a reserved word in Lean); spans
are half-open `[start, stop)`. -/
structure RecognizerResult where
  entity_type : String
  start : Nat
  stop : Nat
  score : Rat
deriving Repr, DecidableEq

/-- Python slice `t[s:e]` on a string modelled as `List Char`. -/
def py_slice (t : List Char) (s e : Nat) : List Char :=
  (t.drop s).take (e - s)

/-- One iteration of the manual mask loop of `Deidentifier.deidentify`
(lines 110-115): `anonymized_text[: res.start] + chr42 * (res.end - res.start)
+ anonymized_text[res.end :]`, where chr42 is the asterisk character. -/
def mask_splice (t : List Char) (s e : Nat) : List Char :=
  t.take s ++ (List.replicate (e - s) '*' ++ t.drop e)

/-- The whole mask loop: fold `mask_splice` over the result list, starting
from the original text (lines 109-115 of the source). -/
def mask_fold (t : List Char) (rs : List RecognizerResult) : List Char :=
  rs.foldl (fun acc r => mask_splice acc r.start r.stop) t

/-- Stable insertion used to model Python's stable
`sorted(analyzer_results, key=lambda x: x.end, reverse=True)`: an element is
placed before the first element whose `stop` is not larger, so that elements
with equal keys keep their original relative order. -/
def insert_by_end_desc (r : RecognizerResult) :
    List RecognizerResult → List RecognizerResult
  | [] => [r]
  | x :: xs =>
      if x.stop ≤ r.stop then r :: x :: xs else x :: insert_by_end_desc r xs

/-- `sorted(analyzer_results, key=lambda x: x.end, reverse=True)` of
line 106-108 of the source: stable sort by `stop` (Python `end`) descending. -/
def sorted_by_end_desc (rs : List RecognizerResult) : List RecognizerResult :=
  rs.foldr insert_by_end_desc []

/-- The ASCII single-quote character, used in the strategy error message. -/
def squote : String := String.singleton (Char.ofNat 39)

/-- The message of the `ValueError` raised for an unsupported strategy
(lines 93-96 of the source): the f-string
`Unsupported strategy: <q><strategy><q>. Available options are: mask, hash`
where `<q>` is a single quote and `mask, hash` is
`", ".join(supported_strategies)`. -/
def unsupported_strategy_msg (strategy : String) : String :=
  "Unsupported strategy: " ++ squote ++ strategy ++ squote ++
    ". Available options are: mask, hash"

/-- `Deidentifier.deidentify(text, strategy, language)` (lines 86-130).

The internal call `self.analyze(text, language=language)` is passed in as
the function argument `analyze` (already specialised to the call's language
and registry state), and the `hash` branch's
`AnonymizerEngine.anonymize(..., operators={'DEFAULT': hash sha256})` is the
argument `hash_anonymize`; both are third-party collaborators.  The embedded
function follows the source line by line: validate the strategy, analyze,
return the text unchanged when there are no results, handle `mask` manually
by splicing from the highest `end` offset down, otherwise delegate to the
anonymizer engine. -/
def deidentify (analyze : List Char → List RecognizerResult)
    (hash_anonymize : List Char → List RecognizerResult → List Char)
    (text : List Char) (strategy : String) : Except String (List Char) :=
  if strategy ∉ (["mask", "hash"] : List String) then
    .error (unsupported_strategy_msg strategy)
  else
    let analyzer_results := analyze text
    if analyzer_results = [] then
      .ok text
    else if strategy = "mask" then
      .ok (mask_fold text (sorted_by_end_desc analyzer_results))
    else
      .ok (hash_anonymize text analyzer_results)

/-! ### Basic lemmas about the mask loop -/

theorem mask_splice_length (t : List Char) (s e : Nat) (hse : s ≤ e)
    (he : e ≤ t.length) : (mask_splice t s e).length = t.length := by
  simp only [mask_splice, List.length_append, List.length_take,
    List.length_replicate, List.length_drop]
  omega

theorem mask_splice_getElem (t : List Char) (s e i : Nat) (hse : s ≤ e)
    (he : e ≤ t.length) :
    (mask_splice t s e)[i]? =
      if s ≤ i ∧ i < e then some '*' else t[i]? := by
  have hs : s ≤ t.length := le_trans hse he
  have hlen : (t.take s).length = s := by simp [List.length_take]; omega
  unfold mask_splice
  rcases Nat.lt_or_ge i s with hi | hi
  · rw [List.getElem?_append_left (by omega), List.getElem?_take_of_lt hi]
    have : ¬ (s ≤ i ∧ i < e) := by omega
    simp [this]
  · rw [List.getElem?_append_right (by omega), hlen]
    rcases Nat.lt_or_ge i e with hie | hie
    · rw [List.getElem?_append_left (by simp [List.length_replicate]; omega)]
      have : s ≤ i ∧ i < e := ⟨hi, hie⟩
      simp [this, List.getElem?_replicate]
    · rw [List.getElem?_append_right (by simp [List.length_replicate]; omega)]
      rw [List.length_replicate, List.getElem?_drop]
      have : ¬ (s ≤ i ∧ i < e) := by omega
      have harg : e + (i - s - (e - s)) = i := by omega
      simp [this, harg]

theorem mask_fold_length (rs : List RecognizerResult) (t : List Char)
    (hb : ∀ r ∈ rs, r.start ≤ r.stop ∧ r.stop ≤ t.length) :
    (mask_fold t rs).length = t.length := by
  induction rs generalizing t with
  | nil => rfl
  | cons r rs ih =>
      have hr := hb r (by simp)
      have hstep : (mask_splice t r.start r.stop).length = t.length :=
        mask_splice_length t r.start r.stop hr.1 hr.2
      have hrest : ∀ x ∈ rs, x.start ≤ x.stop ∧
          x.stop ≤ (mask_splice t r.start r.stop).length := by
        intro x hx
        rw [hstep]
        exact hb x (by simp [hx])
      calc (mask_fold t (r :: rs)).length
          = (mask_fold (mask_splice t r.start r.stop) rs).length := rfl
        _ = (mask_splice t r.start r.stop).length := ih _ hrest
        _ = t.length := hstep

theorem mask_fold_getElem (rs : List RecognizerResult) (t : List Char)
    (hb : ∀ r ∈ rs, r.start ≤ r.stop ∧ r.stop ≤ t.length) (i : Nat) :
    (mask_fold t rs)[i]? =
      if ∃ r ∈ rs, r.start ≤ i ∧ i < r.stop then some '*' else t[i]? := by
  induction rs generalizing t with
  | nil => simp [mask_fold]
  | cons r rs ih =>
      have hr := hb r (by simp)
      have hstep : (mask_splice t r.start r.stop).length = t.length :=
        mask_splice_length t r.start r.stop hr.1 hr.2
      have hrest : ∀ x ∈ rs, x.start ≤ x.stop ∧
          x.stop ≤ (mask_splice t r.start r.stop).length := by
        intro x hx
        rw [hstep]
        exact hb x (by simp [hx])
      have hfold : (mask_fold t (r :: rs))[i]? =
          (mask_fold (mask_splice t r.start r.stop) rs)[i]? := rfl
      rw [hfold, ih _ hrest,
        mask_splice_getElem t r.start r.stop i hr.1 hr.2]
      by_cases hcov : r.start ≤ i ∧ i < r.stop
      · by_cases hex : ∃ x ∈ rs, x.start ≤ i ∧ i < x.stop
        · have h1 : ∃ x ∈ r :: rs, x.start ≤ i ∧ i < x.stop := by
            obtain ⟨x, hx, hxc⟩ := hex
            exact ⟨x, by simp [hx], hxc⟩
          simp [hex, h1]
        · have h1 : ∃ x ∈ r :: rs, x.start ≤ i ∧ i < x.stop :=
            ⟨r, by simp, hcov⟩
          simp [hex, h1, hcov]
      · by_cases hex : ∃ x ∈ rs, x.start ≤ i ∧ i < x.stop
        · have h1 : ∃ x ∈ r :: rs, x.start ≤ i ∧ i < x.stop := by
            obtain ⟨x, hx, hxc⟩ := hex
            exact ⟨x, by simp [hx], hxc⟩
          simp [hex, h1]
        · have h1 : ¬ ∃ x ∈ r :: rs, x.start ≤ i ∧ i < x.stop := by
            rintro ⟨x, hx, hxc⟩
            rcases List.mem_cons.mp hx with rfl | hx'
            · exact hcov hxc
            · exact hex ⟨x, hx', hxc⟩
          simp [hex, h1, hcov]

theorem mem_insert_by_end_desc (r x : RecognizerResult)
    (l : List RecognizerResult) :
    x ∈ insert_by_end_desc r l ↔ x = r ∨ x ∈ l := by
  induction l with
  | nil => simp [insert_by_end_desc]
  | cons y ys ih =>
      by_cases h : y.stop ≤ r.stop
      · simp [insert_by_end_desc, h]
      · simp [insert_by_end_desc, h, ih]
        tauto

theorem mem_sorted_by_end_desc (x : RecognizerResult)
    (rs : List RecognizerResult) :
    x ∈ sorted_by_end_desc rs ↔ x ∈ rs := by
  induction rs with
  | nil => simp [sorted_by_end_desc]
  | cons r l ih =>
      simp only [sorted_by_end_desc, List.foldr_cons]
      rw [mem_insert_by_end_desc]
      simp only [sorted_by_end_desc] at ih
      simp [ih]

theorem py_slice_getElem (t : List Char) (s e j : Nat) :
    (py_slice t s e)[j]? = if j < e - s then t[s + j]? else none := by
  unfold py_slice
  by_cases h : j < e - s
  · rw [List.getElem?_take_of_lt h, List.getElem?_drop]
    simp [h]
  · have hlen : ((t.drop s).take (e - s)).length ≤ j := by
      simp [List.length_take, List.length_drop]
      omega
    simp [List.getElem?_eq_none hlen, h]

/-- C1: for every input text and every list of matches whose offsets lie
within the text's bounds, `deidentify(text, strategy='mask')` returns output
whose total length equals the input length, and for every match the output
consists of exactly `end - start` asterisk characters at positions
`[start, end)`. -/
theorem deidentify_mask_length_and_mask_chars
    (analyze : List Char → List RecognizerResult)
    (hash_anonymize : List Char → List RecognizerResult → List Char)
    (text : List Char)
    (hb : ∀ r ∈ analyze text, r.start ≤ r.stop ∧ r.stop ≤ text.length) :
    ∃ out, deidentify analyze hash_anonymize text "mask" = .ok out ∧
      out.length = text.length ∧
      ∀ r ∈ analyze text,
        py_slice out r.start r.stop = List.replicate (r.stop - r.start) '*' := by
  by_cases hres : analyze text = []
  · refine ⟨text, by simp [deidentify, hres], rfl, ?_⟩
    intro r hr
    rw [hres] at hr
    cases hr
  · have hb' : ∀ r ∈ sorted_by_end_desc (analyze text),
        r.start ≤ r.stop ∧ r.stop ≤ text.length := by
      intro r hr
      exact hb r ((mem_sorted_by_end_desc r _).mp hr)
    refine ⟨mask_fold text (sorted_by_end_desc (analyze text)),
      by simp [deidentify, hres], mask_fold_length _ _ hb', ?_⟩
    intro r hr
    have hrb := hb r hr
    apply List.ext_getElem?
    intro j
    rw [py_slice_getElem, List.getElem?_replicate]
    by_cases hj : j < r.stop - r.start
    · have hcov : ∃ x ∈ sorted_by_end_desc (analyze text),
          x.start ≤ r.start + j ∧ r.start + j < x.stop := by
        refine ⟨r, (mem_sorted_by_end_desc r _).mpr hr, by omega, by omega⟩
      rw [mask_fold_getElem _ _ hb' (r.start + j)]
      simp [hj, hcov]
    · simp [hj]

/-- C1 witness: the theorem instantiated at the text `abcdef` with a single
in-bounds match spanning `[2, 5)`. -/
theorem deidentify_mask_length_and_mask_chars_witness :
    (∀ r ∈ (fun (_ : List Char) =>
        [RecognizerResult.mk "EMAIL_ADDRESS" 2 5 ((17 : Rat)/20)])
          ['a', 'b', 'c', 'd', 'e', 'f'],
        r.start ≤ r.stop ∧ r.stop ≤
          (['a', 'b', 'c', 'd', 'e', 'f'] : List Char).length) ∧
    (∃ out, deidentify
        (fun (_ : List Char) =>
          [RecognizerResult.mk "EMAIL_ADDRESS" 2 5 ((17 : Rat)/20)])
        (fun t _ => t) ['a', 'b', 'c', 'd', 'e', 'f'] "mask" = .ok out ∧
      out.length = (['a', 'b', 'c', 'd', 'e', 'f'] : List Char).length ∧
      ∀ r ∈ (fun (_ : List Char) =>
          [RecognizerResult.mk "EMAIL_ADDRESS" 2 5 ((17 : Rat)/20)])
            ['a', 'b', 'c', 'd', 'e', 'f'],
        py_slice out r.start r.stop = List.replicate (r.stop - r.start) '*') :=
  ⟨by decide, deidentify_mask_length_and_mask_chars _ _ _ (by decide)⟩

/-- C10: in the output of the mask strategy, every character position not
covered by any match interval `[start, end)` carries the same character as
the input text. -/
theorem deidentify_mask_frame
    (analyze : List Char → List RecognizerResult)
    (hash_anonymize : List Char → List RecognizerResult → List Char)
    (text : List Char)
    (hb : ∀ r ∈ analyze text, r.start ≤ r.stop ∧ r.stop ≤ text.length) :
    ∃ out, deidentify analyze hash_anonymize text "mask" = .ok out ∧
      ∀ i, (∀ r ∈ analyze text, ¬ (r.start ≤ i ∧ i < r.stop)) →
        out[i]? = text[i]? := by
  by_cases hres : analyze text = []
  · exact ⟨text, by simp [deidentify, hres], fun i _ => rfl⟩
  · have hb' : ∀ r ∈ sorted_by_end_desc (analyze text),
        r.start ≤ r.stop ∧ r.stop ≤ text.length := by
      intro r hr
      exact hb r ((mem_sorted_by_end_desc r _).mp hr)
    refine ⟨mask_fold text (sorted_by_end_desc (analyze text)),
      by simp [deidentify, hres], ?_⟩
    intro i hi
    rw [mask_fold_getElem _ _ hb' i]
    have hnc : ¬ ∃ x ∈ sorted_by_end_desc (analyze text),
        x.start ≤ i ∧ i < x.stop := by
      rintro ⟨x, hx, hxc⟩
      exact hi x ((mem_sorted_by_end_desc x _).mp hx) hxc
    simp [hnc]

/-- C10 witness: the frame theorem instantiated at the text `abcdef` with a
single match spanning `[2, 5)`; positions 0, 1 and 5 keep their characters. -/
theorem deidentify_mask_frame_witness :
    (∀ r ∈ (fun (_ : List Char) =>
        [RecognizerResult.mk "PHONE_NUMBER" 2 5 ((17 : Rat)/20)])
          ['a', 'b', 'c', 'd', 'e', 'f'],
        r.start ≤ r.stop ∧ r.stop ≤
          (['a', 'b', 'c', 'd', 'e', 'f'] : List Char).length) ∧
    (∃ out, deidentify
        (fun (_ : List Char) =>
          [RecognizerResult.mk "PHONE_NUMBER" 2 5 ((17 : Rat)/20)])
        (fun t _ => t) ['a', 'b', 'c', 'd', 'e', 'f'] "mask" = .ok out ∧
      ∀ i, (∀ r ∈ (fun (_ : List Char) =>
          [RecognizerResult.mk "PHONE_NUMBER" 2 5 ((17 : Rat)/20)])
            ['a', 'b', 'c', 'd', 'e', 'f'],
          ¬ (r.start ≤ i ∧ i < r.stop)) →
        out[i]? = (['a', 'b', 'c', 'd', 'e', 'f'] : List Char)[i]?) :=
  ⟨by decide, deidentify_mask_frame _ _ _ (by decide)⟩

/-- C2 counterexample: as stated, "every matched non-empty slice of the
output differs from the original slice" fails when the original span already
consists solely of asterisks.  With the text `***` and a single analyzer
match covering `[0, 3)`, the mask strategy rewrites the span to `***`, so
the output slice equals the input slice even though the match is non-empty
and in bounds. -/
theorem deidentify_mask_alters_spans_counterexample :
    ¬ (∀ (analyze : List Char → List RecognizerResult)
        (hash_anonymize : List Char → List RecognizerResult → List Char)
        (text out : List Char),
        deidentify analyze hash_anonymize text "mask" = .ok out →
        (∀ r ∈ analyze text, r.start ≤ r.stop ∧ r.stop ≤ text.length) →
        ∀ r ∈ analyze text, r.start < r.stop →
          py_slice out r.start r.stop ≠ py_slice text r.start r.stop) := by
  intro hclaim
  exact hclaim (fun _ => [RecognizerResult.mk "CUSTOM" 0 3 1])
    (fun t _ => t) ['*', '*', '*'] ['*', '*', '*'] (by rfl) (by decide)
    (RecognizerResult.mk "CUSTOM" 0 3 1) (by decide) (by decide) rfl

/-- C2 amended: after `deidentify(text, strategy='mask')`, every matched
slice of the output differs from the original slice at the same offsets
whenever the match is non-empty **and** the original slice does not already
consist entirely of asterisk characters. -/
theorem deidentify_mask_alters_nonstar_spans
    (analyze : List Char → List RecognizerResult)
    (hash_anonymize : List Char → List RecognizerResult → List Char)
    (text out : List Char)
    (hok : deidentify analyze hash_anonymize text "mask" = .ok out)
    (hb : ∀ r ∈ analyze text, r.start ≤ r.stop ∧ r.stop ≤ text.length)
    (r : RecognizerResult) (hr : r ∈ analyze text) (_hne : r.start < r.stop)
    (hstar : py_slice text r.start r.stop ≠
      List.replicate (r.stop - r.start) '*') :
    py_slice out r.start r.stop ≠ py_slice text r.start r.stop := by
  obtain ⟨out', hok', _, hsl⟩ :=
    deidentify_mask_length_and_mask_chars analyze hash_anonymize text hb
  rw [hok] at hok'
  cases hok'
  intro heq
  exact hstar (heq ▸ hsl r hr)

/-- C2 witness for the amended claim: text `abc`, one match over `[0, 2)`;
the original slice `ab` is not all asterisks and the output slice is `**`. -/
theorem deidentify_mask_alters_nonstar_spans_witness :
    (deidentify (fun (_ : List Char) => [RecognizerResult.mk "X" 0 2 1])
      (fun t _ => t) ['a', 'b', 'c'] "mask" = .ok ['*', '*', 'c']) ∧
    (∀ r ∈ (fun (_ : List Char) => [RecognizerResult.mk "X" 0 2 1])
        ['a', 'b', 'c'],
      r.start ≤ r.stop ∧ r.stop ≤ (['a', 'b', 'c'] : List Char).length) ∧
    (RecognizerResult.mk "X" 0 2 1 ∈
      (fun (_ : List Char) => [RecognizerResult.mk "X" 0 2 1])
        ['a', 'b', 'c']) ∧
    ((RecognizerResult.mk "X" 0 2 1).start <
      (RecognizerResult.mk "X" 0 2 1).stop) ∧
    (py_slice ['a', 'b', 'c'] 0 2 ≠ List.replicate (2 - 0) '*') ∧
    py_slice ['*', '*', 'c'] 0 2 ≠ py_slice ['a', 'b', 'c'] 0 2 :=
  ⟨by rfl, by decide, by decide, by decide, by decide,
    deidentify_mask_alters_nonstar_spans
      (fun (_ : List Char) => [RecognizerResult.mk "X" 0 2 1])
      (fun t _ => t) ['a', 'b', 'c'] ['*', '*', 'c'] (by rfl) (by decide)
      (RecognizerResult.mk "X" 0 2 1) (by decide) (by decide) (by decide)⟩

theorem string_append_assoc (a b c : String) : a ++ b ++ c = a ++ (b ++ c) := by
  apply String.ext
  simp

/-- C5: whenever the analyzer returns an empty match list, `deidentify`
returns the input text unchanged, for both supported strategies
(`mask` and `hash`); the early return on line 100-101 of the source fires
before either strategy branch is reached. -/
theorem deidentify_no_match_passthrough
    (analyze : List Char → List RecognizerResult)
    (hash_anonymize : List Char → List RecognizerResult → List Char)
    (text : List Char) (strategy : String)
    (hs : strategy = "mask" ∨ strategy = "hash")
    (hres : analyze text = []) :
    deidentify analyze hash_anonymize text strategy = .ok text := by
  rcases hs with rfl | rfl <;> simp [deidentify, hres]

/-- C5 witness: both supported strategies return the concrete text unchanged
when the analyzer finds nothing. -/
theorem deidentify_no_match_passthrough_witness :
    deidentify (fun _ => []) (fun t _ => t)
      ['s', 'a', 'f', 'e'] "mask" = .ok ['s', 'a', 'f', 'e'] ∧
    deidentify (fun _ => []) (fun t _ => t)
      ['s', 'a', 'f', 'e'] "hash" = .ok ['s', 'a', 'f', 'e'] :=
  ⟨deidentify_no_match_passthrough _ _ _ _ (Or.inl rfl) rfl,
    deidentify_no_match_passthrough _ _ _ _ (Or.inr rfl) rfl⟩

/-- C6: for every strategy other than `mask` and `hash`, `deidentify` fails
with the `ValueError` message that names the offending strategy value (it
occurs verbatim between single quotes) and enumerates the supported options
(`mask, hash`).  The failure happens before any analysis: the result is the
same for every analyzer and anonymizer, i.e. neither collaborator is
consulted, and — the embedding being a function of the registry-independent
arguments only — no state is modified. -/
theorem deidentify_unsupported_strategy
    (analyze₁ analyze₂ : List Char → List RecognizerResult)
    (hash₁ hash₂ : List Char → List RecognizerResult → List Char)
    (text : List Char) (strategy : String)
    (hs : strategy ∉ (["mask", "hash"] : List String)) :
    deidentify analyze₁ hash₁ text strategy =
      .error (unsupported_strategy_msg strategy) ∧
    deidentify analyze₁ hash₁ text strategy =
      deidentify analyze₂ hash₂ text strategy ∧
    ∃ pre post, unsupported_strategy_msg strategy = pre ++ strategy ++ post ∧
      post = squote ++ ". Available options are: mask, hash" := by
  refine ⟨by simp [deidentify, hs], by simp [deidentify, hs],
    "Unsupported strategy: " ++ squote,
    squote ++ ". Available options are: mask, hash", ?_, rfl⟩
  simp [unsupported_strategy_msg, string_append_assoc]

/-- C6 witness: the rejection at the concrete unsupported strategy
`encrypt`. -/
theorem deidentify_unsupported_strategy_witness :
    ("encrypt" : String) ∉ (["mask", "hash"] : List String) ∧
    (deidentify (fun _ => [RecognizerResult.mk "PERSON" 0 1 1])
        (fun t _ => t) ['S', 'o', 'm', 'e'] "encrypt" =
      .error (unsupported_strategy_msg "encrypt") ∧
    deidentify (fun _ => [RecognizerResult.mk "PERSON" 0 1 1])
        (fun t _ => t) ['S', 'o', 'm', 'e'] "encrypt" =
      deidentify (fun _ => []) (fun _ _ => []) ['S', 'o', 'm', 'e'] "encrypt" ∧
    ∃ pre post,
      unsupported_strategy_msg "encrypt" = pre ++ "encrypt" ++ post ∧
      post = squote ++ ". Available options are: mask, hash") :=
  ⟨by decide, deidentify_unsupported_strategy _ _ _ _ _ _ (by decide)⟩

/-! ### The recognizer registry and `add_custom_recognizer` -/

/-- Presidio `Pattern`: a named regex with a confidence score. -/
structure Pattern where
  name : String
  regex : String
  score : Rat
deriving Repr, DecidableEq

/-- A recognizer held by the registry.  `pattern` is exactly the generic
class `PatternRecognizer` (one supported entity, a list of regex patterns);
`builtin` covers every other recognizer class — statistical recognizers and
specialized `PatternRecognizer` subclasses such as `CreditCardRecognizer` —
identified by its class name and the entity types it emits.  The source
separates the two with `type(rec) is PatternRecognizer` (line 54). -/
inductive Recognizer where
  | pattern (supported_entity : String) (patterns : List Pattern)
  | builtin (name : String) (supported_entities : List String)
deriving Repr, DecidableEq

/-- The Python attribute `rec.supported_entities`: a `PatternRecognizer`
supports exactly its one `supported_entity`. -/
def Recognizer.supported_entities : Recognizer → List String
  | .pattern e _ => [e]
  | .builtin _ es => es

/-- The source's test `type(rec) is PatternRecognizer` (line 54): true only
for the generic pattern class, not for built-ins or subclasses. -/
def Recognizer.is_plain_pattern : Recognizer → Bool
  | .pattern _ _ => true
  | .builtin _ _ => false

/-- Modelled from the spec: Presidio's
`registry.get_recognizers(language=language, all_fields=True)`.  The spec
(§2, §4.1) treats the registry as the active set of recognizers for the
language in use, and the repository only ever works in the single default
language `en`, so the model is single-language: the call returns the whole
active set.  The `language` argument of the callers is kept for signature
fidelity but does not select among sets. -/
def get_recognizers (registry : List Recognizer) : List Recognizer :=
  registry

/-- The loop of lines 50-60 of the source: keep every recognizer that is
not a generic `PatternRecognizer`, and among generic pattern recognizers
keep those that do not support `entity_name` (named after the source's
local variable `recognizers_to_keep`). -/
def recognizers_to_keep (registry : List Recognizer)
    (entity_name : String) : List Recognizer :=
  (get_recognizers registry).filter
    (fun rec => !rec.is_plain_pattern ||
      !(rec.supported_entities.contains entity_name))

/-- `Deidentifier.add_custom_recognizer(entity_name, regex_pattern, score,
language)` (lines 23-73), acting on the registry state `registry` and
returning the new registry state.

Collaborator behavior that is not repository code:
* Modelled from the spec: constructing
  `PatternRecognizer(supported_entity=..., patterns=[Pattern(...)])`
  compiles the supplied regex; per spec §7 a regex that cannot compile
  fails with `PatternCompileError` at registration time.  Whether a given
  regex compiles is the regex engine's business and is passed in as
  `compile_ok`.
* `registry.add_recognizer(custom_recognizer)` appends to the active set.

A raised exception is an `.error` carrying the message together with the
registry state at the moment the exception escapes: the score check fires
before the registry is touched (line 41), while the pattern construction
happens after the dedup filter has replaced the registry (lines 63-72). -/
def add_custom_recognizer (compile_ok : String → Bool)
    (registry : List Recognizer) (entity_name : String)
    (regex_pattern : String) (score : Rat) (language : String) :
    Except (String × List Recognizer) (List Recognizer) :=
  if ¬ (0 ≤ score ∧ score ≤ 1) then
    .error ("Score must be between 0.0 and 1.0.", registry)
  else if compile_ok regex_pattern then
    .ok (recognizers_to_keep registry entity_name ++
      [Recognizer.pattern entity_name
        [Pattern.mk entity_name regex_pattern score]])
  else
    .error ("PatternCompileError", recognizers_to_keep registry entity_name)

/-- The registry state after a call, whether it succeeded or raised. -/
def registry_after
    (result : Except (String × List Recognizer) (List Recognizer)) :
    List Recognizer :=
  match result with
  | .ok reg => reg
  | .error (_, reg) => reg

theorem mem_keep_of_not_plain (registry : List Recognizer)
    (entity_name : String) (r : Recognizer) (hr : r ∈ registry)
    (hnp : r.is_plain_pattern = false) :
    r ∈ recognizers_to_keep registry entity_name :=
  List.mem_filter.mpr ⟨hr, by simp [hnp]⟩

theorem not_mem_keep_spec (registry : List Recognizer)
    (entity_name : String) (r : Recognizer) (hr : r ∈ registry)
    (hnot : r ∉ recognizers_to_keep registry entity_name) :
    r.is_plain_pattern = true ∧ entity_name ∈ r.supported_entities := by
  have hpred : ¬ ((!r.is_plain_pattern ||
      !(r.supported_entities.contains entity_name)) = true) :=
    fun hp => hnot (List.mem_filter.mpr ⟨hr, hp⟩)
  cases hb : r.is_plain_pattern with
  | false => exact absurd (by simp [hb]) hpred
  | true =>
      cases hc : r.supported_entities.contains entity_name with
      | false => exact absurd (by rw [hb, hc]; rfl) hpred
      | true => exact ⟨rfl, List.mem_of_elem_eq_true hc⟩

theorem keep_subset (registry : List Recognizer) (entity_name : String)
    (r : Recognizer) (hr : r ∈ recognizers_to_keep registry entity_name) :
    r ∈ registry :=
  (List.mem_filter.mp hr).1

/-- C7: `add_custom_recognizer` fails with the score `ValueError` for every
score outside `[0, 1]`, and the failure occurs before any mutation: the
registry state carried by the error is exactly the original registry.  The
boundary scores `0` and `1` are both accepted (given a regex the engine
compiles, the call succeeds). -/
theorem add_custom_recognizer_score_validation
    (compile_ok : String → Bool) (registry : List Recognizer)
    (entity_name regex_pattern language : String) :
    (∀ score : Rat, ¬ (0 ≤ score ∧ score ≤ 1) →
      add_custom_recognizer compile_ok registry entity_name regex_pattern
          score language =
        .error ("Score must be between 0.0 and 1.0.", registry)) ∧
    (compile_ok regex_pattern = true →
      (add_custom_recognizer compile_ok registry entity_name regex_pattern
        0 language).isOk = true ∧
      (add_custom_recognizer compile_ok registry entity_name regex_pattern
        1 language).isOk = true) := by
  refine ⟨fun score hscore => by simp [add_custom_recognizer, hscore],
    fun hc => ?_⟩
  constructor <;>
    norm_num [add_custom_recognizer, hc, Except.isOk, Except.toBool]

/-- C7 witness: score `3/2` is rejected with the original registry intact,
while the boundary scores `0` and `1` are accepted, at a concrete registry
holding one built-in recognizer. -/
theorem add_custom_recognizer_score_validation_witness :
    (¬ (0 ≤ ((3 : Rat)/2) ∧ ((3 : Rat)/2) ≤ 1)) ∧
    (add_custom_recognizer (fun _ => true)
        [Recognizer.builtin "SpacyRecognizer" ["PERSON"]]
        "ORDER_ID" "ORD" ((3 : Rat)/2) "en" =
      .error ("Score must be between 0.0 and 1.0.",
        [Recognizer.builtin "SpacyRecognizer" ["PERSON"]])) ∧
    ((add_custom_recognizer (fun _ => true)
        [Recognizer.builtin "SpacyRecognizer" ["PERSON"]]
        "ORDER_ID" "ORD" 0 "en").isOk = true ∧
      (add_custom_recognizer (fun _ => true)
        [Recognizer.builtin "SpacyRecognizer" ["PERSON"]]
        "ORDER_ID" "ORD" 1 "en").isOk = true) :=
  ⟨by norm_num,
    (add_custom_recognizer_score_validation (fun _ => true)
      [Recognizer.builtin "SpacyRecognizer" ["PERSON"]]
      "ORDER_ID" "ORD" "en").1 ((3 : Rat)/2) (by norm_num),
    (add_custom_recognizer_score_validation (fun _ => true)
      [Recognizer.builtin "SpacyRecognizer" ["PERSON"]]
      "ORDER_ID" "ORD" "en").2 rfl⟩

/-- C8: when the supplied regex does not compile, `add_custom_recognizer`
fails with `PatternCompileError` — at registration time, because the failure
is the registration call's own result — and every recognizer in the registry
afterwards was already registered before the call: the bad pattern is never
installed, so no later `analyze` call can run it and silently produce zero
matches. -/
theorem add_custom_recognizer_compile_error
    (compile_ok : String → Bool) (registry : List Recognizer)
    (entity_name regex_pattern language : String) (score : Rat)
    (hscore : 0 ≤ score ∧ score ≤ 1)
    (hbad : compile_ok regex_pattern = false) :
    add_custom_recognizer compile_ok registry entity_name regex_pattern
        score language =
      .error ("PatternCompileError",
        recognizers_to_keep registry entity_name) ∧
    ∀ r ∈ recognizers_to_keep registry entity_name, r ∈ registry := by
  constructor
  · simp [add_custom_recognizer, hscore.1, hscore.2, hbad]
  · exact keep_subset registry entity_name

/-- C8 witness: a regex the engine rejects yields `PatternCompileError` at
registration against a concrete one-recognizer registry, and the resulting
registry only holds already-registered recognizers. -/
theorem add_custom_recognizer_compile_error_witness :
    (0 ≤ ((17 : Rat)/20) ∧ ((17 : Rat)/20) ≤ 1) ∧
    ((fun (r : String) => !(r == "ORD-(")) "ORD-(" = false) ∧
    (add_custom_recognizer (fun r => !(r == "ORD-("))
        [Recognizer.builtin "SpacyRecognizer" ["PERSON"]]
        "ORDER_ID" "ORD-(" ((17 : Rat)/20) "en" =
      .error ("PatternCompileError",
        recognizers_to_keep [Recognizer.builtin "SpacyRecognizer" ["PERSON"]]
          "ORDER_ID") ∧
    ∀ r ∈ recognizers_to_keep
        [Recognizer.builtin "SpacyRecognizer" ["PERSON"]] "ORDER_ID",
      r ∈ [Recognizer.builtin "SpacyRecognizer" ["PERSON"]]) :=
  ⟨by norm_num, by decide,
    add_custom_recognizer_compile_error (fun r => !(r == "ORD-("))
      [Recognizer.builtin "SpacyRecognizer" ["PERSON"]]
      "ORDER_ID" "ORD-(" "en" ((17 : Rat)/20) (by norm_num) (by decide)⟩

/-- C9: whatever the arguments and outcome (success, score error, or compile
error), every recognizer of the original registry that is not a plain
`PatternRecognizer` is still present afterwards — built-ins are never
removed, even when they emit the same entity type — and any recognizer that
disappeared was a plain pattern recognizer supporting `entity_name`. -/
theorem add_custom_recognizer_preserves_builtins
    (compile_ok : String → Bool) (registry : List Recognizer)
    (entity_name regex_pattern language : String) (score : Rat) :
    (∀ r ∈ registry, r.is_plain_pattern = false →
      r ∈ registry_after (add_custom_recognizer compile_ok registry
        entity_name regex_pattern score language)) ∧
    (∀ r ∈ registry, r ∉ registry_after (add_custom_recognizer compile_ok
        registry entity_name regex_pattern score language) →
      r.is_plain_pattern = true ∧ entity_name ∈ r.supported_entities) := by
  have hafter :
      registry_after (add_custom_recognizer compile_ok registry
        entity_name regex_pattern score language) = registry ∨
      registry_after (add_custom_recognizer compile_ok registry
        entity_name regex_pattern score language) =
        recognizers_to_keep registry entity_name ∨
      registry_after (add_custom_recognizer compile_ok registry
        entity_name regex_pattern score language) =
        recognizers_to_keep registry entity_name ++
          [Recognizer.pattern entity_name
            [Pattern.mk entity_name regex_pattern score]] := by
    by_cases hscore : (0 : Rat) ≤ score ∧ score ≤ 1
    · by_cases hc : compile_ok regex_pattern = true
      · right; right; simp [add_custom_recognizer, registry_after, hscore, hc]
      · right; left; simp [add_custom_recognizer, registry_after, hscore, hc]
    · left; simp [add_custom_recognizer, registry_after, hscore]
  constructor
  · intro r hr hnp
    rcases hafter with h | h | h <;> rw [h]
    · exact hr
    · exact mem_keep_of_not_plain registry entity_name r hr hnp
    · exact List.mem_append.mpr
        (Or.inl (mem_keep_of_not_plain registry entity_name r hr hnp))
  · intro r hr hout
    rcases hafter with h | h | h <;> rw [h] at hout
    · exact absurd hr hout
    · exact not_mem_keep_spec registry entity_name r hr hout
    · exact not_mem_keep_spec registry entity_name r hr
        (fun hm => hout (List.mem_append.mpr (Or.inl hm)))

/-- C9 witness: a built-in recognizer that even emits the same entity type
as the custom one survives a successful registration. -/
theorem add_custom_recognizer_preserves_builtins_witness :
    Recognizer.builtin "OrderBuiltin" ["ORDER_ID"] ∈
      registry_after (add_custom_recognizer (fun _ => true)
        [Recognizer.builtin "OrderBuiltin" ["ORDER_ID"]]
        "ORDER_ID" "ORD" ((17 : Rat)/20) "en") :=
  (add_custom_recognizer_preserves_builtins (fun _ => true)
    [Recognizer.builtin "OrderBuiltin" ["ORDER_ID"]]
    "ORDER_ID" "ORD" "en" ((17 : Rat)/20)).1
    (Recognizer.builtin "OrderBuiltin" ["ORDER_ID"]) (by decide) rfl

/-- Modelled from the spec (§2, §4.2): `AnalyzerEngine.analyze` with no
entity filter runs every registered recognizer against the text and returns
the union of their matches (`Deidentifier.analyze`, lines 75-84 of the
source, delegates to this engine).  A generic pattern recognizer contributes
one match per regex hit, typed with its supported entity and scored with the
pattern's score; the detection logic of built-in recognizers is third-party
and is passed in as `builtin_detect`, keyed by the recognizer's name.  The
regex engine is `pattern_engine`, returning the half-open spans at which a
regex matches the text. -/
def analyze (pattern_engine : String → String → List (Nat × Nat))
    (builtin_detect : String → String → List RecognizerResult)
    (registry : List Recognizer) (text : String) : List RecognizerResult :=
  registry.flatMap (fun rec =>
    match rec with
    | .pattern ent pats =>
        pats.flatMap (fun p =>
          (pattern_engine p.regex text).map
            (fun se => RecognizerResult.mk ent se.1 se.2 p.score))
    | .builtin name _ => builtin_detect name text)

theorem keep_drops_new_pattern (registry : List Recognizer)
    (entity_name regex : String) (score : Rat) :
    recognizers_to_keep (recognizers_to_keep registry entity_name ++
        [Recognizer.pattern entity_name [Pattern.mk entity_name regex score]])
      entity_name = recognizers_to_keep registry entity_name := by
  unfold recognizers_to_keep get_recognizers
  rw [List.filter_append, List.filter_filter]
  simp [Recognizer.is_plain_pattern, Recognizer.supported_entities,
    Bool.and_self]

theorem filter_entity_keep_nil (registry : List Recognizer)
    (entity_name : String) :
    (recognizers_to_keep registry entity_name).filter
      (fun r => r.is_plain_pattern &&
        r.supported_entities.contains entity_name) = [] := by
  rw [List.filter_eq_nil_iff]
  intro r hr
  have hp := (List.mem_filter.mp hr).2
  cases hb : r.is_plain_pattern with
  | false => simp [hb]
  | true =>
      cases hc : r.supported_entities.contains entity_name with
      | false => simp [hb, hc]
      | true => rw [hb, hc] at hp; simp at hp

theorem add_custom_recognizer_ok_shape (compile_ok : String → Bool)
    (registry : List Recognizer) (entity_name regex : String) (score : Rat)
    (language : String) (reg : List Recognizer)
    (h : add_custom_recognizer compile_ok registry entity_name regex score
      language = .ok reg) :
    reg = recognizers_to_keep registry entity_name ++
      [Recognizer.pattern entity_name [Pattern.mk entity_name regex score]] := by
  unfold add_custom_recognizer at h
  split at h
  · simp at h
  · split at h
    · exact (Except.ok.inj h).symm
    · simp at h

/-- C3: registering a custom recognizer twice for the same `entity_name`
(with any regexes and in-range scores) leaves exactly one plain pattern
recognizer for that entity in the registry, and a subsequent `analyze` of a
text on which the (second) regex has exactly one hit reports exactly one
match of that entity type, for that span — not two.  The built-in
recognizers of the original registry are assumed not to emit matches typed
`entity_name` themselves. -/
theorem add_custom_recognizer_idempotent
    (compile_ok : String → Bool) (registry : List Recognizer)
    (entity_name regex₁ regex₂ language₁ language₂ : String)
    (score₁ score₂ : Rat) (reg₁ reg₂ : List Recognizer)
    (h₁ : add_custom_recognizer compile_ok registry entity_name regex₁
      score₁ language₁ = .ok reg₁)
    (h₂ : add_custom_recognizer compile_ok reg₁ entity_name regex₂
      score₂ language₂ = .ok reg₂) :
    (reg₂.filter (fun r => r.is_plain_pattern &&
        r.supported_entities.contains entity_name)).length = 1 ∧
    ∀ (pattern_engine : String → String → List (Nat × Nat))
      (builtin_detect : String → String → List RecognizerResult)
      (text : String) (s e : Nat),
      pattern_engine regex₂ text = [(s, e)] →
      (∀ name ents, Recognizer.builtin name ents ∈ registry →
        ∀ m ∈ builtin_detect name text, m.entity_type ≠ entity_name) →
      (analyze pattern_engine builtin_detect reg₂ text).filter
          (fun m => m.entity_type == entity_name) =
        [RecognizerResult.mk entity_name s e score₂] := by
  have e₁ := add_custom_recognizer_ok_shape compile_ok registry entity_name
    regex₁ score₁ language₁ reg₁ h₁
  subst e₁
  have e₂ := add_custom_recognizer_ok_shape compile_ok _ entity_name
    regex₂ score₂ language₂ reg₂ h₂
  rw [keep_drops_new_pattern] at e₂
  subst e₂
  constructor
  · rw [List.filter_append, filter_entity_keep_nil]
    simp [Recognizer.is_plain_pattern, Recognizer.supported_entities]
  · intro pattern_engine builtin_detect text s e hhit hbuiltin
    unfold analyze
    rw [List.flatMap_append, List.filter_append]
    have hkeep_nil :
        ((recognizers_to_keep registry entity_name).flatMap (fun rec =>
          match rec with
          | .pattern ent pats =>
              pats.flatMap (fun p =>
                (pattern_engine p.regex text).map
                  (fun se => RecognizerResult.mk ent se.1 se.2 p.score))
          | .builtin name _ => builtin_detect name text)).filter
            (fun m => m.entity_type == entity_name) = [] := by
      rw [List.filter_flatMap]
      rw [List.flatMap_eq_nil_iff]
      intro rec hrec
      rw [List.filter_eq_nil_iff]
      intro m hm
      have hpred := (List.mem_filter.mp hrec).2
      match rec with
      | .pattern ent pats =>
          have hne : ent ≠ entity_name := by
            intro hcontra
            subst hcontra
            simp [Recognizer.is_plain_pattern,
              Recognizer.supported_entities] at hpred
          obtain ⟨p, _, hm2⟩ := List.mem_flatMap.mp hm
          obtain ⟨se, _, hm3⟩ := List.mem_map.mp hm2
          rw [← hm3]
          simp [hne]
      | .builtin name ents =>
          have hmem : Recognizer.builtin name ents ∈ registry :=
            keep_subset registry entity_name _ hrec
          have := hbuiltin name ents hmem m hm
          simp [this]
    rw [hkeep_nil]
    simp [hhit]

/-- C3 witness: with a one-built-in registry, registering `ORDER_ID` twice
(same regex and score) leaves one `ORDER_ID` pattern recognizer, and
analyzing a text with one regex hit at span `[26, 34)` yields exactly one
`ORDER_ID` match. -/
theorem add_custom_recognizer_idempotent_witness :
    (add_custom_recognizer (fun _ => true)
        [Recognizer.builtin "SpacyRecognizer" ["PERSON"]]
        "ORDER_ID" "ORD-\\d\x7b4\x7d" 1 "en" =
      .ok [Recognizer.builtin "SpacyRecognizer" ["PERSON"],
        Recognizer.pattern "ORDER_ID"
          [Pattern.mk "ORDER_ID" "ORD-\\d\x7b4\x7d" 1]]) ∧
    (add_custom_recognizer (fun _ => true)
        [Recognizer.builtin "SpacyRecognizer" ["PERSON"],
          Recognizer.pattern "ORDER_ID"
            [Pattern.mk "ORDER_ID" "ORD-\\d\x7b4\x7d" 1]]
        "ORDER_ID" "ORD-\\d\x7b4\x7d" 1 "en" =
      .ok [Recognizer.builtin "SpacyRecognizer" ["PERSON"],
        Recognizer.pattern "ORDER_ID"
          [Pattern.mk "ORDER_ID" "ORD-\\d\x7b4\x7d" 1]]) ∧
    ((([Recognizer.builtin "SpacyRecognizer" ["PERSON"],
        Recognizer.pattern "ORDER_ID"
          [Pattern.mk "ORDER_ID" "ORD-\\d\x7b4\x7d" 1]] :
        List Recognizer).filter (fun r => r.is_plain_pattern &&
          r.supported_entities.contains "ORDER_ID")).length = 1 ∧
    (analyze (fun _ _ => [(26, 34)]) (fun _ _ => [])
        [Recognizer.builtin "SpacyRecognizer" ["PERSON"],
          Recognizer.pattern "ORDER_ID"
            [Pattern.mk "ORDER_ID" "ORD-\\d\x7b4\x7d" 1]]
        "The order confirmation is ORD-1234.").filter
          (fun m => m.entity_type == "ORDER_ID") =
      [RecognizerResult.mk "ORDER_ID" 26 34 1]) :=
  ⟨by rfl, by rfl,
    (add_custom_recognizer_idempotent (fun _ => true)
      [Recognizer.builtin "SpacyRecognizer" ["PERSON"]]
      "ORDER_ID" "ORD-\\d\x7b4\x7d" "ORD-\\d\x7b4\x7d" "en" "en"
      1 1
      [Recognizer.builtin "SpacyRecognizer" ["PERSON"],
        Recognizer.pattern "ORDER_ID"
          [Pattern.mk "ORDER_ID" "ORD-\\d\x7b4\x7d" 1]]
      [Recognizer.builtin "SpacyRecognizer" ["PERSON"],
        Recognizer.pattern "ORDER_ID"
          [Pattern.mk "ORDER_ID" "ORD-\\d\x7b4\x7d" 1]]
      (by rfl) (by rfl)).1,
    (add_custom_recognizer_idempotent (fun _ => true)
      [Recognizer.builtin "SpacyRecognizer" ["PERSON"]]
      "ORDER_ID" "ORD-\\d\x7b4\x7d" "ORD-\\d\x7b4\x7d" "en" "en"
      1 1
      [Recognizer.builtin "SpacyRecognizer" ["PERSON"],
        Recognizer.pattern "ORDER_ID"
          [Pattern.mk "ORDER_ID" "ORD-\\d\x7b4\x7d" 1]]
      [Recognizer.builtin "SpacyRecognizer" ["PERSON"],
        Recognizer.pattern "ORDER_ID"
          [Pattern.mk "ORDER_ID" "ORD-\\d\x7b4\x7d" 1]]
      (by rfl) (by rfl)).2
      (fun _ _ => [(26, 34)]) (fun _ _ => [])
      "The order confirmation is ORD-1234." 26 34 rfl
      (by intro name ents hmem m hm; simp at hm)⟩

/-! ### `deidentify_patient_record` (lines 133-161 of the source) -/

mutual
/-- A Python value appearing in a patient record: a string, a non-string
scalar (modelled by an integer, standing for every value that is neither a
`str`, a `dict` nor a `list`), a list, or a nested mapping. -/
inductive RecordVal where
  | str (s : String)
  | int (n : Int)
  | list (xs : List RecordVal)
  | dict (m : RecordMap)
deriving Repr

/-- A Python `dict` with string keys, as the insertion-ordered association
sequence of its items (`record.items()` iterates in this order; in-place
update `record[key] = v` keeps the position). -/
inductive RecordMap where
  | nil
  | cons (key : String) (value : RecordVal) (rest : RecordMap)
deriving Repr
end

/-- The allow-list `keys_to_deidentify` of free-text fields
(lines 143-151 of the source; a Python `set`, used only for membership). -/
def keys_to_deidentify : List String :=
  ["symptoms", "physical_activity", "mental_exercises", "mental_health",
    "previous_tests", "summary", "comments"]

/-- `deidentify_patient_record(record, deidentifier)` (lines 133-161).
The call `deidentifier.deidentify(value)` is the function argument
`deidentifier` (the default-strategy de-identification of one string,
specialised to the instance's registry).  The loop over `record.items()`
recurses into dictionary values, replaces string values whose key is in the
allow-list, and leaves everything else — including list values — untouched.
Python mutates the record in place and returns it; the embedding returns
the resulting mapping (the source's return value, equal to the mutated
input). -/
def deidentify_patient_record (deidentifier : String → String) :
    RecordMap → RecordMap
  | .nil => .nil
  | .cons key (RecordVal.dict sub) rest =>
      .cons key (.dict (deidentify_patient_record deidentifier sub))
        (deidentify_patient_record deidentifier rest)
  | .cons key (RecordVal.str s) rest =>
      if keys_to_deidentify.contains key then
        .cons key (.str (deidentifier s))
          (deidentify_patient_record deidentifier rest)
      else
        .cons key (.str s) (deidentify_patient_record deidentifier rest)
  | .cons key v rest =>
      .cons key v (deidentify_patient_record deidentifier rest)

/-- Python dictionary lookup `record[key]` on the association sequence. -/
def lookup_field : RecordMap → String → Option RecordVal
  | .nil, _ => none
  | .cons k v rest, key => if k = key then some v else lookup_field rest key

/-- Follow a path of keys through nested mappings: `get_path v [k₁, …, kₙ]`
is `v[k₁]…[kₙ]` when every step goes through a mapping, `none` otherwise. -/
def get_path : RecordVal → List String → Option RecordVal
  | v, [] => some v
  | .dict m, key :: keys =>
      match lookup_field m key with
      | some v => get_path v keys
      | none => none
  | _, _ :: _ => none

/-- What one traversal step does to the value stored under key `k`:
strings under an allow-listed key are de-identified, other strings kept,
nested mappings recursed into, and non-string scalars and lists left
exactly unchanged. -/
def transform_val (deidentifier : String → String) (k : String) :
    RecordVal → RecordVal
  | .str s =>
      if keys_to_deidentify.contains k then .str (deidentifier s)
      else .str s
  | .dict sub => .dict (deidentify_patient_record deidentifier sub)
  | .int n => .int n
  | .list xs => .list xs

theorem lookup_deidentify_patient_record (deidentifier : String → String) :
    ∀ (m : RecordMap) (key : String),
      lookup_field (deidentify_patient_record deidentifier m) key =
        (lookup_field m key).map (transform_val deidentifier key)
  | .nil, key => rfl
  | .cons k v rest, key => by
      cases v with
      | str s =>
          by_cases hk : k ∈ keys_to_deidentify
          · by_cases hkey : k = key
            · subst hkey
              simp [deidentify_patient_record, lookup_field, transform_val, hk]
            · simp [deidentify_patient_record, lookup_field, hk, hkey,
                lookup_deidentify_patient_record deidentifier rest key]
          · by_cases hkey : k = key
            · subst hkey
              simp [deidentify_patient_record, lookup_field, transform_val, hk]
            · simp [deidentify_patient_record, lookup_field, hk, hkey,
                lookup_deidentify_patient_record deidentifier rest key]
      | int n =>
          by_cases hkey : k = key
          · subst hkey
            simp [deidentify_patient_record, lookup_field, transform_val]
          · simp [deidentify_patient_record, lookup_field, hkey,
              lookup_deidentify_patient_record deidentifier rest key]
      | list xs =>
          by_cases hkey : k = key
          · subst hkey
            simp [deidentify_patient_record, lookup_field, transform_val]
          · simp [deidentify_patient_record, lookup_field, hkey,
              lookup_deidentify_patient_record deidentifier rest key]
      | dict sub =>
          by_cases hkey : k = key
          · subst hkey
            simp [deidentify_patient_record, lookup_field, transform_val]
          · simp [deidentify_patient_record, lookup_field, hkey,
              lookup_deidentify_patient_record deidentifier rest key]

/-- C4: `deidentify_patient_record` visits every nested mapping at any
depth.  For every path of keys `pre ++ [k]` that reaches a value `v` through
nested mappings, the transformed record holds at that path: the
de-identified string when `v` is a string and `k` is in the allow-list; the
same string when `k` is not allow-listed; the recursively transformed
mapping when `v` is a mapping; and `v` itself — exactly unchanged — when
`v` is a non-string scalar or a list (lists are not recursed into). -/
theorem deidentify_patient_record_get_path (deidentifier : String → String) :
    ∀ (m : RecordMap) (pre : List String) (k : String) (v : RecordVal),
      get_path (.dict m) (pre ++ [k]) = some v →
      get_path (.dict (deidentify_patient_record deidentifier m))
        (pre ++ [k]) = some (transform_val deidentifier k v)
  | m, [], k, v, h => by
      cases hm : lookup_field m k with
      | none => simp [get_path, hm] at h
      | some w =>
          have hw : w = v := by simpa [get_path, hm] using h
          subst hw
          simp [get_path, lookup_deidentify_patient_record, hm]
  | m, p :: pre, k, v, h => by
      cases hm : lookup_field m p with
      | none => simp [get_path, hm] at h
      | some w =>
          have hw : get_path w (pre ++ [k]) = some v := by
            simpa [get_path, hm] using h
          cases w with
          | str s => cases pre <;> simp [get_path] at hw
          | int n => cases pre <;> simp [get_path] at hw
          | list xs => cases pre <;> simp [get_path] at hw
          | dict sub =>
              have ih := deidentify_patient_record_get_path deidentifier
                sub pre k v hw
              have hl := lookup_deidentify_patient_record deidentifier m p
              rw [hm] at hl
              have hl' : lookup_field
                  (deidentify_patient_record deidentifier m) p =
                  some (RecordVal.dict
                    (deidentify_patient_record deidentifier sub)) := by
                rw [hl]; rfl
              simp [get_path, hl']
              exact ih

/-- C4 witness: the spec's example record
`{"symptoms": "John has a fever", "age": 42,
  "nested": {"comments": "call 555-1234"}}`:
the top-level allow-listed string is transformed, the non-string scalar
`age` is untouched, and the recursion reaches the nested `comments`
field. -/
theorem deidentify_patient_record_get_path_witness :
    (get_path (.dict (RecordMap.cons "symptoms" (.str "John has a fever")
        (RecordMap.cons "age" (.int 42)
          (RecordMap.cons "nested"
            (.dict (RecordMap.cons "comments" (.str "call 555-1234")
              RecordMap.nil)) RecordMap.nil))))
        ([] ++ ["symptoms"]) = some (.str "John has a fever") ∧
      get_path (.dict (deidentify_patient_record (fun _ => "MASKED")
        (RecordMap.cons "symptoms" (.str "John has a fever")
          (RecordMap.cons "age" (.int 42)
            (RecordMap.cons "nested"
              (.dict (RecordMap.cons "comments" (.str "call 555-1234")
                RecordMap.nil)) RecordMap.nil)))))
        ([] ++ ["symptoms"]) =
        some (transform_val (fun _ => "MASKED") "symptoms"
          (.str "John has a fever"))) ∧
    (get_path (.dict (RecordMap.cons "symptoms" (.str "John has a fever")
        (RecordMap.cons "age" (.int 42)
          (RecordMap.cons "nested"
            (.dict (RecordMap.cons "comments" (.str "call 555-1234")
              RecordMap.nil)) RecordMap.nil))))
        ([] ++ ["age"]) = some (.int 42) ∧
      get_path (.dict (deidentify_patient_record (fun _ => "MASKED")
        (RecordMap.cons "symptoms" (.str "John has a fever")
          (RecordMap.cons "age" (.int 42)
            (RecordMap.cons "nested"
              (.dict (RecordMap.cons "comments" (.str "call 555-1234")
                RecordMap.nil)) RecordMap.nil)))))
        ([] ++ ["age"]) =
        some (transform_val (fun _ => "MASKED") "age" (.int 42))) ∧
    (get_path (.dict (RecordMap.cons "symptoms" (.str "John has a fever")
        (RecordMap.cons "age" (.int 42)
          (RecordMap.cons "nested"
            (.dict (RecordMap.cons "comments" (.str "call 555-1234")
              RecordMap.nil)) RecordMap.nil))))
        (["nested"] ++ ["comments"]) = some (.str "call 555-1234") ∧
      get_path (.dict (deidentify_patient_record (fun _ => "MASKED")
        (RecordMap.cons "symptoms" (.str "John has a fever")
          (RecordMap.cons "age" (.int 42)
            (RecordMap.cons "nested"
              (.dict (RecordMap.cons "comments" (.str "call 555-1234")
                RecordMap.nil)) RecordMap.nil)))))
        (["nested"] ++ ["comments"]) =
        some (transform_val (fun _ => "MASKED") "comments"
          (.str "call 555-1234"))) :=
  ⟨⟨rfl, deidentify_patient_record_get_path (fun _ => "MASKED")
      (RecordMap.cons "symptoms" (.str "John has a fever")
        (RecordMap.cons "age" (.int 42)
          (RecordMap.cons "nested"
            (.dict (RecordMap.cons "comments" (.str "call 555-1234")
              RecordMap.nil)) RecordMap.nil)))
      [] "symptoms" (.str "John has a fever") rfl⟩,
    ⟨rfl, deidentify_patient_record_get_path (fun _ => "MASKED")
      (RecordMap.cons "symptoms" (.str "John has a fever")
        (RecordMap.cons "age" (.int 42)
          (RecordMap.cons "nested"
            (.dict (RecordMap.cons "comments" (.str "call 555-1234")
              RecordMap.nil)) RecordMap.nil)))
      [] "age" (.int 42) rfl⟩,
    ⟨rfl, deidentify_patient_record_get_path (fun _ => "MASKED")
      (RecordMap.cons "symptoms" (.str "John has a fever")
        (RecordMap.cons "age" (.int 42)
          (RecordMap.cons "nested"
            (.dict (RecordMap.cons "comments" (.str "call 555-1234")
              RecordMap.nil)) RecordMap.nil)))
      ["nested"] "comments" (.str "call 555-1234") rfl⟩⟩

end SdxPrivacy
